import Mathlib

/-!
Verification of the ETOS LLM Studio debug server
(`docs/debug-tools/debug_server.py`).

The Python file is a single-class asyncio program.  We shallowly embed it:
the mutable attributes of `DebugServer.__init__` become a `ServerState`
structure, each handler becomes a pure state-transition function returning
the new state together with the externally visible actions (commands passed
to `send_command`, file writes, HTTP responses), and wall-clock timestamps
are passed in as explicit arguments.  Console printing is not modelled.
-/

namespace ETOS

/-- Modelled from the spec / Python standard library: the base64 alphabet of
`base64.b64encode` (RFC 4648), which `debug_server.py` imports as `base64`.
The module itself is not part of the repository source. -/
def b64chars : List Char :=
  "ABCDEFGHIJKLMNOPQRSTUVWXYZabcdefghijklmnopqrstuvwxyz0123456789+/".toList

/-- The character encoding a 6-bit group. -/
def b64c (n : Nat) : Char := b64chars.getD n '?'

/-- The 6-bit group encoded by a character, if any. -/
def b64cinv (c : Char) : Option Nat := b64chars.findIdx? (fun d => d = c)

/-- Modelled from the Python standard library: `base64.b64encode` on a byte
string, bytes as naturals below 256, producing the padded base64 text that
`debug_server.py` puts in the `data` field of upload commands. -/
def b64encode : List Nat → List Char
  | [] => []
  | [a] => [b64c (a / 4), b64c (a % 4 * 16), '=', '=']
  | [a, b] => [b64c (a / 4), b64c (a % 4 * 16 + b / 16), b64c (b % 16 * 4), '=']
  | a :: b :: d :: rest =>
      b64c (a / 4) :: b64c (a % 4 * 16 + b / 16) ::
      b64c (b % 16 * 4 + d / 64) :: b64c (d % 64) :: b64encode rest

/-- Modelled from the Python standard library: `base64.b64decode`, returning
`none` where the Python call raises (which the server catches). -/
def b64decode : List Char → Option (List Nat)
  | [] => some []
  | w :: x :: y :: z :: rest =>
      match b64cinv w, b64cinv x with
      | some a, some b =>
          if y = '=' ∧ z = '=' ∧ rest = [] then
            some [a * 4 + b / 16]
          else
            match b64cinv y with
            | some c =>
                if z = '=' ∧ rest = [] then
                  some [a * 4 + b / 16, b % 16 * 16 + c / 4]
                else
                  match b64cinv z, b64decode rest with
                  | some d, some bs =>
                      some ((a * 4 + b / 16) :: (b % 16 * 16 + c / 4) ::
                            (c % 4 * 64 + d) :: bs)
                  | _, _ => none
            | none => none
      | _, _ => none
  | _ => none

theorem b64cinv_b64c : ∀ n < 64, b64cinv (b64c n) = some n := by decide

theorem b64c_ne_pad : ∀ n < 64, b64c n ≠ '=' := by decide

/-- Decoding inverts encoding on genuine byte strings. -/
theorem b64decode_b64encode (l : List Nat) (h : ∀ b ∈ l, b < 256) :
    b64decode (b64encode l) = some l := by
  induction l using b64encode.induct with
  | case1 => simp [b64encode, b64decode]
  | case2 a =>
      have ha : a < 256 := h a (by simp)
      have h1 : a / 4 < 64 := by omega
      have h2 : a % 4 * 16 < 64 := by omega
      simp only [b64encode, b64decode, b64cinv_b64c _ h1, b64cinv_b64c _ h2]
      rw [if_pos (by simp)]
      congr 2
      omega
  | case3 a b =>
      have ha : a < 256 := h a (by simp)
      have hb : b < 256 := h b (by simp)
      have h1 : a / 4 < 64 := by omega
      have h2 : a % 4 * 16 + b / 16 < 64 := by omega
      have h3 : b % 16 * 4 < 64 := by omega
      simp only [b64encode, b64decode, b64cinv_b64c _ h1, b64cinv_b64c _ h2]
      rw [if_neg (by intro hc; exact b64c_ne_pad _ h3 hc.1)]
      simp only [b64cinv_b64c _ h3]
      rw [if_pos (by simp)]
      congr 2
      · omega
      · congr 1
        omega
  | case4 a b d rest ih =>
      have ha : a < 256 := h a (by simp)
      have hb : b < 256 := h b (by simp)
      have hd : d < 256 := h d (by simp)
      have h1 : a / 4 < 64 := by omega
      have h2 : a % 4 * 16 + b / 16 < 64 := by omega
      have h3 : b % 16 * 4 + d / 64 < 64 := by omega
      have h4 : d % 64 < 64 := by omega
      have ihr : b64decode (b64encode rest) = some rest := by
        refine ih ?_
        intro x hx
        exact h x (by simp [hx])
      simp only [b64encode, b64decode, b64cinv_b64c _ h1, b64cinv_b64c _ h2]
      rw [if_neg (by intro hc; exact b64c_ne_pad _ h3 hc.1)]
      simp only [b64cinv_b64c _ h3]
      rw [if_neg (by intro hc; exact b64c_ne_pad _ h4 hc.1)]
      simp only [b64cinv_b64c _ h4, ihr]
      congr 2
      · omega
      · congr 1
        · omega
        · congr 1
          omega

/-- The JSON request body of a captured OpenAI chat-completions call
(`handle_openai_proxy`).  Only its `model` field is inspected by the server;
the rest of the body is carried opaquely as `payload`. -/
structure OpenAIRequest where
  model : Option String := none
  payload : String := ""
  deriving DecidableEq, Repr

/-- The JSON commands the server passes to `send_command`, one constructor
per distinct `{"command": ...}` object built in `debug_server.py`. -/
inductive Command where
  | ping
  | list (path : String)
  | download (path : String)
  | upload (path : String) (data : List Char)
  | delete (path : String)
  | mkdir (path : String)
  | download_all
  | upload_all (files : List (String × List Char))
  | upload_list (paths : List String) (total : Nat)
  | list_all
  | openai_capture (request : OpenAIRequest)
  deriving DecidableEq, Repr

/-- The string in the `command` field of the JSON object. -/
def Command.name : Command → String
  | .ping => "ping"
  | .list _ => "list"
  | .download _ => "download"
  | .upload _ _ => "upload"
  | .delete _ => "delete"
  | .mkdir _ => "mkdir"
  | .download_all => "download_all"
  | .upload_all _ => "upload_all"
  | .upload_list _ _ => "upload_list"
  | .list_all => "list_all"
  | .openai_capture _ => "openai_capture"

/-- One entry of a directory listing (`print_directory_list`). -/
structure DirItem where
  itemName : String
  isDirectory : Bool
  size : Nat
  modificationDate : Nat
  deriving DecidableEq, Repr

/-- A JSON response from the device, as inspected by `handle_response`.
An absent key is `none`; `stream_complete` records the truthiness of
`data.get('stream_complete')`.  Base64 payloads are `List Char`. -/
structure DeviceResponse where
  status : Option String := none
  message : Option String := none
  stream_complete : Bool := false
  total : Option Nat := none
  success_count : Option Nat := none
  fail_count : Option Nat := none
  path : Option String := none
  data : Option (List Char) := none
  index : Option Nat := none
  size : Option Nat := none
  paths : Option (List String) := none
  items : Option (List DirItem) := none
  files : Option (List (String × List Char)) := none
  deriving DecidableEq, Repr

/-- `self.upload_file_queue`: initialised to a Python list and reassigned to
a dict (path → base64 data) by menu choice 8; `handle_http_fetch_file` and
`handle_http_poll` test `isinstance(..., dict)`.  The dict is an association
list in insertion order. -/
inductive UploadQueue where
  | lst (l : List String)
  | dct (entries : List (String × List Char))
  deriving DecidableEq, Repr

def UploadQueue.isDict : UploadQueue → Bool
  | .dct _ => true
  | .lst _ => false

/-- `isinstance(q, dict) and not q`: the poll-side completion test. -/
def UploadQueue.isEmptyDict : UploadQueue → Bool
  | .dct [] => true
  | _ => false

/-- The mutable attributes set in `DebugServer.__init__`.  The WebSocket
connection object is an abstract identifier; `datetime` values are seconds
as naturals; the `asyncio.Event` is `some b` with `b` its set-flag. -/
structure ServerState where
  device_connection : Option Nat := none
  device_name : String := "未知设备"
  last_poll_time : Option Nat := none
  command_queue : List Command := []
  response_queue : List DeviceResponse := []
  stream_backup_dir : Option String := none
  upload_file_queue : UploadQueue := .lst []
  upload_in_progress : Bool := false
  download_in_progress : Bool := false
  download_file_count : Nat := 0
  download_expected_total : Nat := 0
  compatible_download_in_progress : Bool := false
  compatible_file_list : Option (List String) := none
  compatible_download_event : Option Bool := none
  deriving DecidableEq, Repr

/-- Filesystem actions the handlers perform on the desktop. -/
inductive Eff where
  | mkdirLocal (path : String)
  | writeFile (path : String) (bytes : List Nat)
  deriving DecidableEq, Repr

/-- Split a character list at `'/'` separators. -/
def splitSlash : List Char → List (List Char)
  | [] => [[]]
  | c :: rest =>
      let r := splitSlash rest
      if c = '/' then [] :: r
      else (c :: r.headD []) :: r.tail

/-- Modelled from the Python standard library: `Path(path).name`, the final
non-empty path component (empty when there is none). -/
def basename (p : String) : String :=
  String.mk (((splitSlash p.data).filter (fun s => s ≠ [])).getLastD [])

/-- `send_command`: with a live WebSocket the command is sent directly;
otherwise it is appended to `command_queue`.  Returns the Python function's
boolean result (the unmodelled network send is assumed not to raise). -/
def send_command (s : ServerState) (cmd : Command) : ServerState × Bool :=
  match s.device_connection with
  | some _ => (s, true)
  | none => ({ s with command_queue := s.command_queue ++ [cmd] }, true)

/-- `save_downloaded_file`: decode the base64 payload and write it under
`downloads/` by basename; on a decode failure the exception is caught and
nothing is written. -/
def save_downloaded_file (d : DeviceResponse) : List Eff :=
  let path := d.path.getD "download"
  match b64decode (d.data.getD []) with
  | none => []
  | some bytes =>
      [.mkdirLocal "downloads", .writeFile ("downloads/" ++ basename path) bytes]

/-- `save_all_files`: write every decodable file of a `files` payload into a
fresh `Documents_backup_<timestamp>` directory (per-file exceptions are
caught). -/
def save_all_files (files : List (String × List Char)) (now : String) : List Eff :=
  .mkdirLocal ("downloads/Documents_backup_" ++ now) ::
    files.filterMap (fun f =>
      (b64decode f.2).map (fun bytes =>
        .writeFile ("downloads/Documents_backup_" ++ now ++ "/" ++ f.1) bytes))

/-- `save_stream_file`: skip empty path/data; decode; on first use create
the timestamped `Documents_stream_` directory and remember it in
`stream_backup_dir`; write the file there and record `index` in
`download_file_count`.  A decode failure is caught before any state
change. -/
def save_stream_file (s : ServerState) (d : DeviceResponse) (now : String) :
    ServerState × List Eff :=
  let path := d.path.getD ""
  let b64 := d.data.getD []
  let index := d.index.getD 0
  if path = "" ∨ b64 = [] then (s, [])
  else
    match b64decode b64 with
    | none => (s, [])
    | some bytes =>
        match s.stream_backup_dir with
        | none =>
            let dir := "downloads/Documents_stream_" ++ now
            ({ s with stream_backup_dir := some dir, download_file_count := index },
             [.mkdirLocal dir, .writeFile (dir ++ "/" ++ path) bytes])
        | some dir =>
            ({ s with download_file_count := index },
             [.writeFile (dir ++ "/" ++ path) bytes])

/-- `save_compatible_file`: like the stream case but writes into the already
existing compatible-mode directory and increments `download_file_count`.
If `stream_backup_dir` is `None`, `None / path` raises and the exception is
caught with no state change. -/
def save_compatible_file (s : ServerState) (d : DeviceResponse) :
    ServerState × List Eff :=
  let path := d.path.getD ""
  let b64 := d.data.getD []
  if path = "" ∨ b64 = [] then (s, [])
  else
    match b64decode b64 with
    | none => (s, [])
    | some bytes =>
        match s.stream_backup_dir with
        | none => (s, [])
        | some dir =>
            ({ s with download_file_count := s.download_file_count + 1 },
             [.writeFile (dir ++ "/" ++ path) bytes])

/-- `handle_response`: dispatch on the keys of an `ok` response exactly as
the Python `if/elif` chain does; a non-`ok` status only prints. -/
def handle_response (s : ServerState) (d : DeviceResponse) (now : String) :
    ServerState × List Eff :=
  if d.status = some "ok" then
    if d.stream_complete then
      ({ s with download_in_progress := false, stream_backup_dir := none,
                download_file_count := 0, download_expected_total := 0 }, [])
    else if d.path.isSome ∧ d.data.isSome ∧ d.index.isSome then
      let s1 := { s with download_file_count := d.index.getD 0,
                         download_expected_total := d.total.getD 0 }
      save_stream_file s1 d now
    else if d.paths.isSome ∧ d.total.isSome then
      let s1 := { s with compatible_file_list := some (d.paths.getD []) }
      (if s1.compatible_download_event.isSome then
        { s1 with compatible_download_event := some true }
       else s1, [])
    else if d.items.isSome then (s, [])
    else if d.files.isSome then (s, save_all_files (d.files.getD []) now)
    else if d.data.isSome ∧ d.path.isSome then
      if s.compatible_download_in_progress then
        let r := save_compatible_file s d
        (if r.1.compatible_download_event.isSome then
          { r.1 with compatible_download_event := some true }
         else r.1, r.2)
      else (s, save_downloaded_file d)
    else (s, [])
  else (s, [])

/-- The three possible JSON bodies of a `/poll` response. -/
inductive PollResult where
  | uploadComplete
  | cmd (c : Command)
  | noneCmd
  deriving DecidableEq, Repr

/-- `handle_http_poll`: refresh `last_poll_time` and the device name, report
`upload_complete` once a streamed upload's dict queue is empty, otherwise
pop the oldest queued command, else answer `{"command": "none"}`. -/
def handle_http_poll (s : ServerState) (now : Nat) (ip : String) :
    ServerState × PollResult :=
  let s := { s with
    last_poll_time := some now,
    device_name := if s.device_name = "未知设备" then "设备 " ++ ip else s.device_name }
  if s.upload_in_progress ∧ s.upload_file_queue.isEmptyDict then
    ({ s with upload_in_progress := false }, .uploadComplete)
  else
    match s.command_queue with
    | c :: rest => ({ s with command_queue := rest }, .cmd c)
    | [] => (s, .noneCmd)

/-- The HTTP result of `/fetch_file`, by status code. -/
inductive FetchResult where
  | ok (path : String) (data : List Char) (remaining : Nat)
  | badRequest
  | notFoundFile
  | serverError
  deriving DecidableEq, Repr

/-- `dict.pop(path)`: remove the entry with the given key. -/
def removeEntry (entries : List (String × List Char)) (path : String) :
    List (String × List Char) :=
  entries.filter (fun e => e.1 ≠ path)

/-- `handle_http_fetch_file`: the request body is `none` when `request.json()`
raises (HTTP 500); a missing/empty `path` or a non-dict queue is HTTP 400; a
queued path is popped and returned; anything else is HTTP 404. -/
def handle_http_fetch_file (s : ServerState) (body : Option (Option String)) :
    ServerState × FetchResult :=
  match body with
  | none => (s, .serverError)
  | some pathOpt =>
      let path := pathOpt.getD ""
      match s.upload_file_queue with
      | .lst _ => (s, .badRequest)
      | .dct entries =>
          if path = "" then (s, .badRequest)
          else
            match entries.lookup path with
            | some data =>
                let rest := removeEntry entries path
                ({ s with upload_file_queue := .dct rest }, .ok path data rest.length)
            | none => (s, .notFoundFile)

/-- An HTTP request as seen by the aiohttp proxy application: `jsonBody` is
`none` when `request.json()` would raise. -/
structure ProxyRequest where
  path : String
  method : String
  jsonBody : Option OpenAIRequest := none
  deriving DecidableEq, Repr

/-- The responses the proxy application can produce. -/
inductive ProxyResponse where
  | captureStub (model : String) (content : String)
  | infoText (text : String)
  | pingInfo
  | notFound
  | errorResp
  deriving DecidableEq, Repr

/-- `handle_openai_proxy`: a well-formed POST to `/v1/chat/completions` is
wrapped as an `openai_capture` command for the device and answered with a
stub completion whose assistant content is empty; a JSON failure is HTTP
500; any other request gets the plain text banner. -/
def handle_openai_proxy (s : ServerState) (r : ProxyRequest) :
    ServerState × List Command × ProxyResponse :=
  if r.path = "/v1/chat/completions" ∧ r.method = "POST" then
    match r.jsonBody with
    | none => (s, [], .errorResp)
    | some body =>
        let cmd := Command.openai_capture body
        ((send_command s cmd).1, [cmd],
          .captureStub (body.model.getD "unknown") "")
  else (s, [], .infoText "ETOS LLM Studio Proxy")

/-- The proxy application's routing table (`start_http_server`): only
`POST /v1/chat/completions` and `GET /` are registered; aiohttp answers
everything else 404 without touching the server. -/
def proxy_route (s : ServerState) (r : ProxyRequest) :
    ServerState × List Command × ProxyResponse :=
  if r.method = "POST" ∧ r.path = "/v1/chat/completions" then
    handle_openai_proxy s r
  else if r.method = "GET" ∧ r.path = "/" then
    (s, [], .pingInfo)
  else
    (s, [], .notFound)

/-- Modelled from the Python standard library: `str.lower()` as used on the
ASCII confirmation input (`confirm.lower() == 'yes'`). -/
def pyLower (s : String) : String := String.mk (s.data.map Char.toLower)

/-- The operator inputs consumed by one round of menu choices 1–5:
`local_file_exists` is `os.path.exists(local_file)` and `local_file_bytes`
the bytes read from it for choice 3. -/
structure MenuInputs where
  path : String := ""
  confirm : String := ""
  local_file : String := ""
  local_file_exists : Bool := false
  local_file_bytes : List Nat := []
  remote_path : String := ""
  deriving Repr

/-- The filesystem commands passed to `send_command` by `interactive_menu`
for choices `'1'`–`'5'` (other choices are handled by other branches and
issue none of the five filesystem commands). -/
def menu_fs_choice (choice : String) (inp : MenuInputs) : List Command :=
  if choice = "1" then
    [.list (if inp.path = "" then "." else inp.path)]
  else if choice = "2" then
    if inp.path ≠ "" then [.download inp.path] else []
  else if choice = "3" then
    if inp.local_file_exists ∧ inp.remote_path ≠ "" then
      [.upload inp.remote_path (b64encode inp.local_file_bytes)]
    else []
  else if choice = "4" then
    if inp.path ≠ "" then
      if pyLower inp.confirm = "yes" then [.delete inp.path] else []
    else []
  else if choice = "5" then
    if inp.path ≠ "" then [.mkdir inp.path] else []
  else []

/-- The `files` list menu choice 8 builds from the walked local directory
(relative path, raw bytes) before sending: each payload is base64. -/
def upload_files_payload (walked : List (String × List Nat)) :
    List (String × List Char) :=
  walked.map (fun e => (e.1, b64encode e.2))

/-- The dict `{f["path"]: f["data"] for f in files}` that menu choice 8
installs as `upload_file_queue` in HTTP mode.  Python dict comprehension
keeps the first position of a key and the last value. -/
def buildUploadDict (files : List (String × List Char)) :
    List (String × List Char) :=
  files.foldl (fun acc f =>
    if (acc.lookup f.1).isSome then
      acc.map (fun e => if e.1 = f.1 then (f.1, f.2) else e)
    else acc ++ [f]) []

/-- `handle_websocket` run to completion on a list of incoming frames
(`none` is a frame that fails JSON parsing and is skipped): install the
connection, send `ping`, feed each parsed frame to `handle_response`, and
in the `finally` clause clear the connection slot. -/
def ws_entry (s : ServerState) (conn : Nat) (ip : String) : ServerState :=
  { s with device_connection := some conn, device_name := "设备 " ++ ip }

def ws_process (s : ServerState) (msgs : List (Option DeviceResponse))
    (now : String) : ServerState :=
  msgs.foldl (fun st m =>
    match m with
    | none => st
    | some d => (handle_response st d now).1) s

def handle_websocket (s : ServerState) (conn : Nat) (ip : String)
    (msgs : List (Option DeviceResponse)) (now : String) : ServerState :=
  let s0 := ws_entry s conn ip
  let s1 := (send_command s0 .ping).1
  let s2 := ws_process s1 msgs now
  { s2 with device_connection := none }

/-- The connection status shown by `interactive_menu` (lines 427–440). -/
inductive ConnStatus where
  | wsConnected
  | httpConnected
  | httpDisconnected
  | waiting
  deriving DecidableEq, Repr

def connection_status (s : ServerState) (now : Nat) : ConnStatus :=
  match s.device_connection with
  | some _ => .wsConnected
  | none =>
      match s.last_poll_time with
      | some t => if now - t < 10 then .httpConnected else .httpDisconnected
      | none => .waiting

/-- What `asyncio.wait_for(event.wait(), 30)` yields in
`download_all_compatible`: either the 30-second timeout fires, or the event
was set and `compatible_file_list` holds the given value (written there by
the `paths` branch of `handle_response`). -/
inductive ListPhase where
  | timeout
  | woke (fl : Option (List String))

/-- The environment of one `download_all_compatible` run: the list-phase
outcome, whether the i-th per-file wait is satisfied within its 60-second
timeout, and an optional loop iteration at which an exception is raised. -/
structure CompatEnv where
  listPhase : ListPhase
  fileArrives : Nat → Bool
  raiseAfter : Option Nat := none

/-- The awaitable steps `download_all_compatible` performs, with the
timeout (in seconds) of each wait. -/
inductive CompatAction where
  | send (c : Command)
  | waitList (timeoutSecs : Nat)
  | waitFile (timeoutSecs : Nat)
  | sleep
  deriving DecidableEq, Repr

structure CompatLoopResult where
  state : ServerState
  acts : List CompatAction
  raised : Bool
  succ : Nat
  failn : Nat

/-- The step-2 loop of `download_all_compatible` (lines 364–380), from loop
index `i`: clear the event, send one `download` command per path in order,
wait up to 60 seconds for it (counting success/failure), then sleep.  The
concurrent `handle_response` that satisfies each wait acts on the shared
state separately and is not folded in here. -/
def compat_loop (env : CompatEnv) :
    ServerState → List String → Nat → CompatLoopResult
  | s, [], _ => ⟨s, [], false, 0, 0⟩
  | s, p :: rest, i =>
      if env.raiseAfter = some i then ⟨s, [], true, 0, 0⟩
      else
        let s1 := { s with compatible_download_event := some false }
        let s2 := (send_command s1 (.download p)).1
        let ok := env.fileArrives i
        let r := compat_loop env s2 rest (i + 1)
        ⟨r.state, .send (.download p) :: .waitFile 60 :: .sleep :: r.acts,
         r.raised,
         (if ok then 1 else 0) + r.succ, (if ok then 0 else 1) + r.failn⟩

/-- The `try` body of `download_all_compatible`: send `list_all`, wait up to
30 seconds for the path list, bail out on timeout or on a falsy
`compatible_file_list` (absent or empty), otherwise run the download loop
over the received paths. -/
def download_all_compatible_body (s : ServerState) (env : CompatEnv) :
    ServerState × List CompatAction :=
  let s1 := (send_command s .list_all).1
  let acts0 := [CompatAction.send .list_all, .waitList 30]
  match env.listPhase with
  | .timeout => (s1, acts0)
  | .woke fl =>
      let s2 := { s1 with compatible_file_list := fl,
                          compatible_download_event := some true }
      match fl with
      | none => (s2, acts0)
      | some [] => (s2, acts0)
      | some files =>
          let s3 := { s2 with download_expected_total := files.length }
          if files.length = 0 then (s3, acts0)
          else
            let r := compat_loop env s3 files 0
            (r.state, acts0 ++ r.acts)

/-- `download_all_compatible`: reset the compatibility flags, create the
timestamped `Documents_compatible_` directory, run the body, and in the
`finally` clause clear the four compatibility-mode fields on every exit
path. -/
def download_all_compatible (s : ServerState) (env : CompatEnv)
    (now : String) : ServerState × List CompatAction :=
  let s0 := { s with
    compatible_download_in_progress := true,
    compatible_file_list := none,
    compatible_download_event := some false,
    download_file_count := 0,
    stream_backup_dir := some ("downloads/Documents_compatible_" ++ now) }
  let r := download_all_compatible_body s0 env
  ({ r.1 with
      compatible_download_in_progress := false,
      compatible_file_list := none,
      compatible_download_event := none,
      stream_backup_dir := none }, r.2)

/-- A run of operator commands issued while the device long-polls:
each goes through `send_command`. -/
def enqueue_commands (s : ServerState) (cmds : List Command) : ServerState :=
  cmds.foldl (fun st c => (send_command st c).1) s

/-- `n` consecutive `/poll` requests, collecting the JSON bodies served. -/
def poll_seq (s : ServerState) (n : Nat) (t : Nat) (ip : String) :
    List PollResult :=
  match n with
  | 0 => []
  | n + 1 =>
      let r := handle_http_poll s t ip
      r.2 :: poll_seq r.1 n t ip

/-! ### Helper lemmas -/

theorem save_stream_file_dir_some (s : ServerState) (d : DeviceResponse)
    (now dir0 : String) (h : s.stream_backup_dir = some dir0) :
    (save_stream_file s d now).1.stream_backup_dir = some dir0 := by
  by_cases hif : d.path.getD "" = "" ∨ d.data.getD [] = []
  · simp [save_stream_file, hif, h]
  · cases hdec : b64decode (d.data.getD []) with
    | none => simp [save_stream_file, hif, hdec, h]
    | some bytes => simp [save_stream_file, hif, hdec, h]

theorem save_compatible_file_dir (s : ServerState) (d : DeviceResponse) :
    (save_compatible_file s d).1.stream_backup_dir = s.stream_backup_dir := by
  by_cases hif : d.path.getD "" = "" ∨ d.data.getD [] = []
  · simp [save_compatible_file, hif]
  · cases hdec : b64decode (d.data.getD []) with
    | none => simp [save_compatible_file, hif, hdec]
    | some bytes =>
        cases hdir : s.stream_backup_dir with
        | none => simp [save_compatible_file, hif, hdec, hdir]
        | some dir => simp [save_compatible_file, hif, hdec, hdir]

theorem handle_response_dir_of_some (s : ServerState) (d : DeviceResponse)
    (now dir0 : String) (h : s.stream_backup_dir = some dir0) :
    (handle_response s d now).1.stream_backup_dir =
      if d.status = some "ok" ∧ d.stream_complete = true then none
      else some dir0 := by
  have hd' : (save_stream_file
      { s with download_file_count := d.index.getD 0,
               download_expected_total := d.total.getD 0 } d now).1.stream_backup_dir
      = some dir0 := save_stream_file_dir_some _ d now dir0 h
  by_cases hok : d.status = some "ok"
  · by_cases hsc : d.stream_complete = true
    · simp [handle_response, hok, hsc]
    · have hsc' : d.stream_complete = false := by simpa using hsc
      simp only [handle_response, hok, hsc', if_true, Bool.false_eq_true, if_false,
        hsc, and_true, and_false, false_and, if_pos rfl]
      split_ifs <;>
        simp_all [save_compatible_file_dir, h]
  · simp [handle_response, hok, h, hok]

theorem lookup_removeEntry (entries : List (String × List Char)) (path : String) :
    (removeEntry entries path).lookup path = none := by
  induction entries with
  | nil => rfl
  | cons e rest ih =>
      by_cases h : e.1 = path
      · have hfil : removeEntry (e :: rest) path = removeEntry rest path := by
          simp [removeEntry, List.filter_cons, h]
        rw [hfil]
        exact ih
      · have hfil : removeEntry (e :: rest) path = e :: removeEntry rest path := by
          simp [removeEntry, List.filter_cons, h]
        rw [hfil]
        obtain ⟨k, v⟩ := e
        have hbe : (path == k) = false := by
          simp only [beq_eq_false_iff_ne, ne_eq]
          exact fun hh => h hh.symm
        simp only [List.lookup, hbe]
        exact ih

theorem enqueue_commands_eq (cmds : List Command) :
    ∀ (s : ServerState), s.device_connection = none →
      enqueue_commands s cmds = { s with command_queue := s.command_queue ++ cmds } := by
  induction cmds with
  | nil => intro s h; simp [enqueue_commands]
  | cons c cs ih =>
      intro s h
      have h1 : (send_command s c).1 = { s with command_queue := s.command_queue ++ [c] } := by
        simp [send_command, h]
      have h2 := ih { s with command_queue := s.command_queue ++ [c] } h
      calc enqueue_commands s (c :: cs)
          = enqueue_commands { s with command_queue := s.command_queue ++ [c] } cs := by
            simp only [enqueue_commands, List.foldl_cons, h1]
        _ = _ := by rw [h2]; simp

theorem poll_seq_drain (Q : List Command) :
    ∀ (s : ServerState), s.command_queue = Q →
      s.upload_in_progress = false ∨ s.upload_file_queue.isEmptyDict = false →
      ∀ (t : Nat) (ip : String),
        poll_seq s (Q.length + 1) t ip = Q.map PollResult.cmd ++ [.noneCmd] := by
  induction Q with
  | nil =>
      intro s hQ h t ip
      rcases h with h | h <;> simp [poll_seq, handle_http_poll, hQ, h]
  | cons c cs ih =>
      intro s hQ h t ip
      simp only [List.length_cons, poll_seq]
      have hstep : handle_http_poll s t ip =
          ({ s with last_poll_time := some t,
                    device_name := if s.device_name = "未知设备" then "设备 " ++ ip
                                   else s.device_name,
                    command_queue := cs }, .cmd c) := by
        rcases h with h | h <;> simp [handle_http_poll, hQ, h]
      rw [hstep]
      have := ih { s with last_poll_time := some t,
                          device_name := if s.device_name = "未知设备" then "设备 " ++ ip
                                         else s.device_name,
                          command_queue := cs } rfl h t ip
      simpa using this

theorem compat_loop_run (env : CompatEnv) (hr : env.raiseAfter = none) :
    ∀ (files : List String) (s : ServerState) (i : Nat),
      (compat_loop env s files i).acts =
        (files.map (fun p =>
          [CompatAction.send (.download p), .waitFile 60, .sleep])).flatten ∧
      (compat_loop env s files i).raised = false ∧
      (compat_loop env s files i).succ + (compat_loop env s files i).failn =
        files.length := by
  intro files
  induction files with
  | nil => intro s i; simp [compat_loop]
  | cons p rest ih =>
      intro s i
      have hne : ¬ env.raiseAfter = some i := by simp [hr]
      obtain ⟨h1, h2, h3⟩ :=
        ih ((send_command { s with compatible_download_event := some false }
              (Command.download p)).1) (i + 1)
      simp only [compat_loop, if_neg hne]
      refine ⟨?_, ?_, ?_⟩
      · simpa using h1
      · simpa using h2
      · simp only [List.length_cons]
        by_cases hok : env.fileArrives i = true <;> simp [hok, h3] <;> omega

theorem upload_files_payload_decode (walked : List (String × List Nat))
    (hw : ∀ e ∈ walked, ∀ b ∈ e.2, b < 256) :
    (upload_files_payload walked).map (fun e => (e.1, b64decode e.2)) =
      walked.map (fun e => (e.1, some e.2)) := by
  induction walked with
  | nil => rfl
  | cons e rest ih =>
      simp only [upload_files_payload, List.map_cons] at *
      rw [b64decode_b64encode e.2 (hw e (by simp))]
      rw [ih (fun x hx => hw x (by simp [hx]))]

theorem save_all_files_payload (walked : List (String × List Nat)) (now : String)
    (hw : ∀ e ∈ walked, ∀ b ∈ e.2, b < 256) :
    save_all_files (upload_files_payload walked) now =
      .mkdirLocal ("downloads/Documents_backup_" ++ now) ::
        walked.map (fun e =>
          .writeFile ("downloads/Documents_backup_" ++ now ++ "/" ++ e.1) e.2) := by
  induction walked with
  | nil => rfl
  | cons e rest ih =>
      have ih' := ih (fun x hx => hw x (by simp [hx]))
      simp only [save_all_files, upload_files_payload, List.map_cons,
        List.filterMap_cons, b64decode_b64encode e.2 (hw e (by simp)),
        Option.map_some] at ih' ⊢
      injection ih' with h1 h2
      simp [h2]

/-! ### Claim theorems -/

/-- C9: handling a device response whose `status` is not `'ok'` leaves the
server state completely unchanged (and performs no filesystem effect):
`handle_response` only prints the error message in that case. -/
theorem handle_response_non_ok_frame (s : ServerState) (d : DeviceResponse)
    (now : String) (h : d.status ≠ some "ok") :
    handle_response s d now = (s, []) := by
  simp [handle_response, h]

theorem handle_response_non_ok_frame_witness :
    ({ status := some "error", message := some "boom" } : DeviceResponse).status
        ≠ some "ok" ∧
    handle_response {} { status := some "error", message := some "boom" } "20240101"
      = ({}, []) :=
  ⟨by decide,
   handle_response_non_ok_frame {} { status := some "error", message := some "boom" }
     "20240101" (by decide)⟩

/-- C10: `download_all_compatible` restores the compatibility-mode state on
every exit path (list timeout, empty or missing list, normal completion, or
an exception raised at any loop iteration): afterwards
`compatible_download_in_progress` is false and `compatible_file_list`,
`compatible_download_event` and `stream_backup_dir` are all `None`. -/
theorem download_all_compatible_finally_resets (s : ServerState)
    (env : CompatEnv) (now : String) :
    (download_all_compatible s env now).1.compatible_download_in_progress = false ∧
    (download_all_compatible s env now).1.compatible_file_list = none ∧
    (download_all_compatible s env now).1.compatible_download_event = none ∧
    (download_all_compatible s env now).1.stream_backup_dir = none := by
  simp [download_all_compatible]

/-- C6: there is one device-connection slot: a new WebSocket connection
overwrites it on entry, the handler's cleanup clears it however the
connection ends, an HTTP-polling device (no WebSocket connected) counts as
the active session iff its last poll was under 10 seconds ago, and whenever
a WebSocket is present the status is the WebSocket session, so two sessions
are never tracked at once. -/
theorem single_device_session (s : ServerState) (conn : Nat) (ip : String)
    (msgs : List (Option DeviceResponse)) (now : String) (t : Nat) :
    (ws_entry s conn ip).device_connection = some conn ∧
    (handle_websocket s conn ip msgs now).device_connection = none ∧
    (∀ s' : ServerState, s'.device_connection = none →
      (connection_status s' t = .httpConnected ↔
        ∃ p, s'.last_poll_time = some p ∧ t - p < 10)) ∧
    (∀ (s' : ServerState) (c : Nat), s'.device_connection = some c →
      connection_status s' t = .wsConnected) := by
  refine ⟨rfl, by simp [handle_websocket], ?_, ?_⟩
  · intro s' h
    cases hl : s'.last_poll_time with
    | none => simp [connection_status, h, hl]
    | some p =>
        by_cases hp : t - p < 10 <;>
          simp [connection_status, h, hl, hp]
  · intro s' c h
    simp [connection_status, h]

theorem single_device_session_witness :
    ({ last_poll_time := some 5 } : ServerState).device_connection = none ∧
    (connection_status { last_poll_time := some 5 } 9 = .httpConnected ↔
      ∃ p, ({ last_poll_time := some 5 } : ServerState).last_poll_time = some p ∧
        9 - p < 10) :=
  ⟨rfl, (single_device_session {} 0 "ip" [] "now" 9).2.2.1
    { last_poll_time := some 5 } rfl⟩

/-- C3: the proxy listener captures exactly one endpoint: a POST to
`/v1/chat/completions` with a JSON body is forwarded to the device wrapped
as an `openai_capture` command and answered with a stub completion whose
assistant content is the empty string; every other path or method forwards
nothing and gets a plain informational response. -/
theorem proxy_capture_only (s : ServerState) (r : ProxyRequest)
    (body : OpenAIRequest) :
    (r.path = "/v1/chat/completions" → r.method = "POST" →
      r.jsonBody = some body →
      proxy_route s r =
        ((send_command s (.openai_capture body)).1, [.openai_capture body],
          .captureStub (body.model.getD "unknown") "")) ∧
    (¬(r.path = "/v1/chat/completions" ∧ r.method = "POST") →
      proxy_route s r = (s, [], .pingInfo) ∨
      proxy_route s r = (s, [], .notFound)) := by
  constructor
  · intro hp hm hb
    simp [proxy_route, handle_openai_proxy, hp, hm, hb]
  · intro h
    have hcond : ¬(r.method = "POST" ∧ r.path = "/v1/chat/completions") := by
      intro hc
      exact h ⟨hc.2, hc.1⟩
    by_cases hg : r.method = "GET" ∧ r.path = "/"
    · left
      simp [proxy_route, hcond, hg]
    · right
      simp [proxy_route, hcond, hg]

theorem proxy_capture_only_witness :
    let r : ProxyRequest :=
      { path := "/v1/chat/completions", method := "POST",
        jsonBody := some { model := some "gpt-4o", payload := "body" } }
    proxy_route {} r =
      ((send_command {} (.openai_capture { model := some "gpt-4o", payload := "body" })).1,
        [.openai_capture { model := some "gpt-4o", payload := "body" }],
        .captureStub "gpt-4o" "") :=
  (proxy_capture_only {} _ { model := some "gpt-4o", payload := "body" }).1
    rfl rfl rfl

/-- C4: the HTTP long-polling relay preserves command order: with no
WebSocket connected, `send_command` appends to `command_queue` and returns
true; draining the queue by successive `/poll` requests (outside a
completed streamed upload) yields the queued commands first-in-first-out
and then `{"command": "none"}`. -/
theorem http_relay_fifo (s : ServerState) (cmds : List Command) (t : Nat)
    (ip : String) (h1 : s.device_connection = none)
    (h2 : s.upload_in_progress = false ∨ s.upload_file_queue.isEmptyDict = false) :
    (∀ cmd, send_command s cmd =
      ({ s with command_queue := s.command_queue ++ [cmd] }, true)) ∧
    enqueue_commands s cmds = { s with command_queue := s.command_queue ++ cmds } ∧
    poll_seq (enqueue_commands s cmds) ((s.command_queue ++ cmds).length + 1) t ip =
      (s.command_queue ++ cmds).map PollResult.cmd ++ [PollResult.noneCmd] := by
  have he := enqueue_commands_eq cmds s h1
  refine ⟨fun cmd => by simp [send_command, h1], he, ?_⟩
  rw [he]
  exact poll_seq_drain (s.command_queue ++ cmds)
    { s with command_queue := s.command_queue ++ cmds } rfl h2 t ip

theorem http_relay_fifo_witness :
    ({} : ServerState).device_connection = none ∧
    (({} : ServerState).upload_in_progress = false ∨
      ({} : ServerState).upload_file_queue.isEmptyDict = false) ∧
    poll_seq (enqueue_commands {} [Command.ping, Command.list "."]) 3 0 "ip" =
      [PollResult.cmd .ping, PollResult.cmd (.list "."), PollResult.noneCmd] :=
  ⟨rfl, Or.inl rfl,
   (http_relay_fifo {} [Command.ping, Command.list "."] 0 "ip" rfl (Or.inl rfl)).2.2⟩

/-- C8: `/fetch_file` is destructive and exactly-once: a queued path is
returned and removed, so fetching it again (or a never-queued path) is
HTTP 404; a missing or empty path, or no dict queue, is HTTP 400 (a
malformed body is HTTP 500); and during an upload the next `/poll` declares
`upload_complete` (clearing `upload_in_progress`) exactly when the queue
dict is empty. -/
theorem fetch_file_exactly_once (s : ServerState)
    (entries : List (String × List Char)) (path : String) (data : List Char)
    (hs : s.upload_file_queue = .dct entries) (hne : path ≠ "") :
    (entries.lookup path = some data →
      handle_http_fetch_file s (some (some path)) =
        ({ s with upload_file_queue := .dct (removeEntry entries path) },
          .ok path data (removeEntry entries path).length) ∧
      handle_http_fetch_file
          { s with upload_file_queue := .dct (removeEntry entries path) }
          (some (some path)) =
        ({ s with upload_file_queue := .dct (removeEntry entries path) },
          .notFoundFile)) ∧
    (entries.lookup path = none →
      handle_http_fetch_file s (some (some path)) = (s, .notFoundFile)) ∧
    (handle_http_fetch_file s (some none) = (s, .badRequest) ∧
      handle_http_fetch_file s (some (some "")) = (s, .badRequest)) ∧
    (∀ (s' : ServerState) (l : List String) (po : Option String),
      s'.upload_file_queue = .lst l →
      handle_http_fetch_file s' (some po) = (s', .badRequest)) ∧
    (∀ s'' : ServerState, handle_http_fetch_file s'' none = (s'', .serverError)) ∧
    (∀ (s' : ServerState) (t : Nat) (ip : String), s'.upload_in_progress = true →
      ((handle_http_poll s' t ip).2 = .uploadComplete ↔
        s'.upload_file_queue.isEmptyDict = true)) := by
  refine ⟨?_, ?_, ?_, ?_, ?_, ?_⟩
  · intro hl
    constructor
    · simp [handle_http_fetch_file, hs, hne, hl]
    · simp [handle_http_fetch_file, hne, lookup_removeEntry]
  · intro hl
    simp [handle_http_fetch_file, hs, hne, hl]
  · constructor
    · simp [handle_http_fetch_file, hs]
    · simp [handle_http_fetch_file, hs]
  · intro s' l po hq
    simp [handle_http_fetch_file, hq]
  · intro s''
    rfl
  · intro s' t ip hu
    by_cases he : s'.upload_file_queue.isEmptyDict = true
    · simp [handle_http_poll, hu, he]
    · rcases hq : s'.command_queue with _ | ⟨c, rest⟩ <;>
        simp [handle_http_poll, hu, he, hq]

theorem fetch_file_exactly_once_witness :
    (({ upload_file_queue := .dct [("a.txt", ['Q'])] } : ServerState).upload_file_queue
        = .dct [("a.txt", ['Q'])]) ∧
    ("a.txt" : String) ≠ "" ∧
    ([("a.txt", ['Q'])].lookup "a.txt" = some ['Q']) ∧
    handle_http_fetch_file { upload_file_queue := .dct [("a.txt", ['Q'])] }
        (some (some "a.txt")) =
      ({ upload_file_queue := .dct [] }, .ok "a.txt" ['Q'] 0) := by
  refine ⟨rfl, by decide, by decide, ?_⟩
  have h := (fetch_file_exactly_once
    { upload_file_queue := .dct [("a.txt", ['Q'])] }
    [("a.txt", ['Q'])] "a.txt" ['Q'] rfl (by decide)).1 (by decide)
  exact h.1

/-- C7 counterexample: menu choice `'1'` with an empty path input still
sends a filesystem command — the `list` command with the defaulted path
`"."` — refuting "no filesystem command is sent when the path is empty". -/
theorem menu_choice_empty_path_counterexample :
    menu_fs_choice "1" { path := "" } = [Command.list "."] ∧
    menu_fs_choice "1" { path := "" } ≠ [] := by decide

/-- C7 amended: choices 1–5 issue exactly `list`, `download`, `upload`,
`delete`, `mkdir`; choice 1 always sends `list`, an empty path defaulting
to `"."`; choices 2, 4, 5 send only on a non-empty path (delete also needs
the confirmation `yes`, case-insensitively); choice 3 sends only when the
local file exists and the remote path is non-empty. -/
theorem menu_fs_choice_amended (inp : MenuInputs) :
    menu_fs_choice "1" inp =
      [.list (if inp.path = "" then "." else inp.path)] ∧
    (inp.path ≠ "" → menu_fs_choice "2" inp = [.download inp.path]) ∧
    (inp.path = "" → menu_fs_choice "2" inp = []) ∧
    (inp.local_file_exists = true → inp.remote_path ≠ "" →
      menu_fs_choice "3" inp =
        [.upload inp.remote_path (b64encode inp.local_file_bytes)]) ∧
    (inp.local_file_exists = false ∨ inp.remote_path = "" →
      menu_fs_choice "3" inp = []) ∧
    (inp.path ≠ "" → pyLower inp.confirm = "yes" →
      menu_fs_choice "4" inp = [.delete inp.path]) ∧
    (inp.path = "" ∨ pyLower inp.confirm ≠ "yes" →
      menu_fs_choice "4" inp = []) ∧
    (inp.path ≠ "" → menu_fs_choice "5" inp = [.mkdir inp.path]) ∧
    (inp.path = "" → menu_fs_choice "5" inp = []) := by
  refine ⟨by simp [menu_fs_choice], ?_, ?_, ?_, ?_, ?_, ?_, ?_, ?_⟩
  · intro h; simp [menu_fs_choice, h]
  · intro h; simp [menu_fs_choice, h]
  · intro h1 h2; simp [menu_fs_choice, h1, h2]
  · rintro (h | h) <;> simp [menu_fs_choice, h]
  · intro h1 h2; simp [menu_fs_choice, h1, h2]
  · rintro (h | h) <;> simp [menu_fs_choice, h]
  · intro h; simp [menu_fs_choice, h]
  · intro h; simp [menu_fs_choice, h]

theorem menu_fs_choice_amended_witness :
    ("Documents/a.txt" : String) ≠ "" ∧
    pyLower "YES" = "yes" ∧
    menu_fs_choice "4" { path := "Documents/a.txt", confirm := "YES" } =
      [Command.delete "Documents/a.txt"] :=
  ⟨by decide, by decide,
   (menu_fs_choice_amended { path := "Documents/a.txt", confirm := "YES" }).2.2.2.2.2.1
     (by decide) (by decide)⟩

/-- C5: file payloads are base64 both ways: decoding inverts the encoding
used for single uploads and the bulk `files` payloads, and a downloaded
payload built from encoded bytes is written back as exactly those bytes. -/
theorem base64_round_trip (bytes : List Nat) (p : String)
    (walked : List (String × List Nat)) (now : String)
    (h : ∀ b ∈ bytes, b < 256)
    (hw : ∀ e ∈ walked, ∀ b ∈ e.2, b < 256) :
    b64decode (b64encode bytes) = some bytes ∧
    (upload_files_payload walked).map (fun e => (e.1, b64decode e.2)) =
      walked.map (fun e => (e.1, some e.2)) ∧
    save_downloaded_file { path := some p, data := some (b64encode bytes) } =
      [.mkdirLocal "downloads", .writeFile ("downloads/" ++ basename p) bytes] ∧
    save_all_files (upload_files_payload walked) now =
      .mkdirLocal ("downloads/Documents_backup_" ++ now) ::
        walked.map (fun e =>
          .writeFile ("downloads/Documents_backup_" ++ now ++ "/" ++ e.1) e.2) := by
  refine ⟨b64decode_b64encode bytes h, upload_files_payload_decode walked hw,
    ?_, save_all_files_payload walked now hw⟩
  simp [save_downloaded_file, b64decode_b64encode bytes h]

theorem base64_round_trip_witness :
    (∀ b ∈ [0, 127, 255], b < 256) ∧
    b64decode (b64encode [0, 127, 255]) = some [0, 127, 255] ∧
    basename "Documents/x.bin" = "x.bin" ∧
    save_downloaded_file
        { path := some "Documents/x.bin", data := some (b64encode [0, 127, 255]) } =
      [.mkdirLocal "downloads",
       .writeFile ("downloads/" ++ basename "Documents/x.bin") [0, 127, 255]] :=
  ⟨by decide,
   (base64_round_trip [0, 127, 255] "Documents/x.bin" [] "ts" (by decide)
     (by decide)).1,
   by decide,
   ((base64_round_trip [0, 127, 255] "Documents/x.bin" [] "ts" (by decide)
     (by decide)).2.2.1)⟩

/-- C2: streamed chunks of one transfer share one directory: the first
valid streamed file (keys `path`, `data`, `index`) creates
`downloads/Documents_stream_<timestamp>` and stores it in
`stream_backup_dir`; later chunks are written under that same directory;
within `handle_response` the directory is reset to `None` exactly by a
`stream_complete` message, which also zeroes `download_file_count` and
`download_expected_total` and clears `download_in_progress`. -/
theorem stream_chunks_single_dir (s : ServerState) (d : DeviceResponse)
    (now p dir0 : String) (b64 : List Char) (bytes : List Nat) (i : Nat)
    (hok : d.status = some "ok") (hsc : d.stream_complete = false)
    (hp : d.path = some p) (hpne : p ≠ "")
    (hd : d.data = some b64) (hbne : b64 ≠ [])
    (hdec : b64decode b64 = some bytes) (hi : d.index = some i) :
    (s.stream_backup_dir = none →
      handle_response s d now =
        ({ s with download_file_count := i,
                  download_expected_total := d.total.getD 0,
                  stream_backup_dir := some ("downloads/Documents_stream_" ++ now) },
         [.mkdirLocal ("downloads/Documents_stream_" ++ now),
          .writeFile ("downloads/Documents_stream_" ++ now ++ "/" ++ p) bytes])) ∧
    (s.stream_backup_dir = some dir0 →
      handle_response s d now =
        ({ s with download_file_count := i,
                  download_expected_total := d.total.getD 0 },
         [.writeFile (dir0 ++ "/" ++ p) bytes])) ∧
    (∀ (s' : ServerState) (d' : DeviceResponse) (now' dir1 : String),
      s'.stream_backup_dir = some dir1 →
      ((handle_response s' d' now').1.stream_backup_dir = none ↔
        d'.status = some "ok" ∧ d'.stream_complete = true)) ∧
    (∀ (s' : ServerState) (d' : DeviceResponse) (now' : String),
      d'.status = some "ok" → d'.stream_complete = true →
      handle_response s' d' now' =
        ({ s' with download_in_progress := false, stream_backup_dir := none,
                   download_file_count := 0, download_expected_total := 0 }, [])) := by
  refine ⟨?_, ?_, ?_, ?_⟩
  · intro hdir
    simp [handle_response, save_stream_file, hok, hsc, hp, hd, hi, hdir,
      hpne, hbne, hdec]
  · intro hdir
    simp [handle_response, save_stream_file, hok, hsc, hp, hd, hi, hdir,
      hpne, hbne, hdec]
  · intro s' d' now' dir1 hdir
    rw [handle_response_dir_of_some s' d' now' dir1 hdir]
    by_cases hc : d'.status = some "ok" ∧ d'.stream_complete = true <;> simp [hc]
  · intro s' d' now' h1 h2
    simp [handle_response, h1, h2]

theorem stream_chunks_single_dir_witness :
    b64decode (b64encode [1, 2]) = some [1, 2] ∧
    handle_response
        { stream_backup_dir := some "downloads/Documents_stream_X" }
        { status := some "ok", path := some "notes/a.txt",
          data := some (b64encode [1, 2]), index := some 3, total := some 9 }
        "T" =
      ({ stream_backup_dir := some "downloads/Documents_stream_X",
         download_file_count := 3, download_expected_total := 9 },
       [.writeFile ("downloads/Documents_stream_X" ++ "/" ++ "notes/a.txt") [1, 2]]) :=
  ⟨by decide,
   (stream_chunks_single_dir
      { stream_backup_dir := some "downloads/Documents_stream_X" }
      { status := some "ok", path := some "notes/a.txt",
        data := some (b64encode [1, 2]), index := some 3, total := some 9 }
      "T" "notes/a.txt" "downloads/Documents_stream_X"
      (b64encode [1, 2]) [1, 2] 3 rfl rfl rfl (by decide) rfl (by decide)
      (by decide) rfl).2.1 rfl⟩

/-- C1: the compatibility-mode bulk download is two-phase: it performs
exactly one `list_all` send followed by a wait of up to 30 seconds; if that
wait times out or the received list is missing or empty, no `download` is
ever sent; otherwise it sends exactly one `download` per listed path, in
list order, each followed by a wait of up to 60 seconds (and the pacing
sleep) before moving on. -/
theorem download_all_compatible_two_phase (s : ServerState) (env : CompatEnv)
    (now : String) (hr : env.raiseAfter = none) :
    ((env.listPhase = .timeout ∨ env.listPhase = .woke none ∨
        env.listPhase = .woke (some [])) →
      (download_all_compatible s env now).2 =
        [.send .list_all, .waitList 30]) ∧
    (∀ files : List String, files ≠ [] → env.listPhase = .woke (some files) →
      (download_all_compatible s env now).2 =
        .send .list_all :: .waitList 30 ::
          (files.map (fun p =>
            [CompatAction.send (.download p), .waitFile 60, .sleep])).flatten) := by
  constructor
  · rintro (h | h | h) <;>
      simp [download_all_compatible, download_all_compatible_body, h]
  · intro files hne hph
    cases files with
    | nil => exact absurd rfl hne
    | cons f fs =>
        simp only [download_all_compatible, download_all_compatible_body, hph]
        rw [(compat_loop_run env hr (f :: fs) _ 0).1]
        simp

theorem download_all_compatible_two_phase_witness :
    (["a", "b"] : List String) ≠ [] ∧
    (download_all_compatible {}
        ⟨.woke (some ["a", "b"]), fun _ => true, none⟩ "ts").2 =
      [.send .list_all, .waitList 30,
       .send (.download "a"), .waitFile 60, .sleep,
       .send (.download "b"), .waitFile 60, .sleep] := by
  refine ⟨by decide, ?_⟩
  have h := (download_all_compatible_two_phase {}
    ⟨.woke (some ["a", "b"]), fun _ => true, none⟩ "ts" rfl).2
    ["a", "b"] (by decide) rfl
  simpa using h

end ETOS
